import Mathlib

/-!
Shallow embedding of the rospo SSH tunnel daemon's connection-lifetime core:
the embedded SSH server (Go package `sshd`), the SSH connection manager
(Go package `sshc`) and the tunnel endpoint (Go package `tun`), translated
from the Go sources.  Calls into external libraries (golang.org/x/crypto/ssh,
knownhosts, the terminal) are modelled by oracle parameters or abstract data,
matching how the sources treat them as opaque.  Go strings appearing in
parsing code are modelled as `List Char`; byte slices as `List Nat`.
-/

namespace Rospo

/-! ## Embedded ssh server (Go package `sshd`) -/

/-- An ssh public key, abstracted: `marshal` is the wire-marshalled byte
sequence that Go obtains from `pubKey.Marshal()`, `fingerprintSHA256` the
string `ssh.FingerprintSHA256(pubKey)`, and `serialized` the printable form
`utils.SerializePublicKey(key)`. -/
structure PublicKey where
  marshal : List Nat
  fingerprintSHA256 : String
  serialized : String
  deriving DecidableEq

/-- `ssh.Permissions`: only the `Extensions` map is used by the server. -/
structure Permissions where
  extensions : List (String × String)
  deriving DecidableEq

/-- `NewSshServer`'s authorized_keys loading loop: every key extracted from
the file is recorded by its wire-marshalled form
(`authorizedKeysMap[string(pubKey.Marshal())] = true`).  The byte-level
`ssh.ParseAuthorizedKey` iteration is an external library call; `keys` is
the list of keys it yields until the byte slice is exhausted, so an empty
authorized_keys file yields `keys = []`. -/
def buildAuthorizedKeysMap (keys : List PublicKey) : List (List Nat) :=
  keys.foldl (fun m k => m ++ [k.marshal]) []

/-- `SshServer.keyAuth`: permit when the offered key's marshalled form is in
the map, recording the SHA-256 fingerprint under the `pubkey-fp` extension;
otherwise return the `unknown public key` error.  `user` is `conn.User()`. -/
def keyAuth (authorizedKeysMap : List (List Nat)) (user : String) (pubKey : PublicKey) :
    Except String Permissions :=
  if pubKey.marshal ∈ authorizedKeysMap then
    Except.ok { extensions := [("pubkey-fp", pubKey.fingerprintSHA256)] }
  else
    Except.error ("unknown public key for \"" ++ user ++ "\"")

/-- An out-of-band ssh global request (`ssh.Request`): its type string,
its want-reply flag, and the id of the peer connection whose request
stream delivered it. -/
structure Request where
  reqType : String
  wantReply : Bool
  origin : Nat
  deriving DecidableEq

/-- Observable actions of the server's out-of-band request handler. -/
inductive SAction where
  /-- `handleTcpIpForward(req, s.client)`: the forward is serviced against
  the given current value of the server's single `client` field. -/
  | serviceTcpIpForward (client : Option Nat)
  /-- the `log.Printf` for an out-of-band request -/
  | logRequest
  /-- `req.Reply(false, nil)` — present in the action vocabulary
  (the ssh library offers it) so that its absence is expressible. -/
  | replyFailure
  deriving DecidableEq

/-- One step of `SshServer.handleRequests`: `tcpip-forward` requests are
serviced against the current `s.client`; everything else is only logged. -/
def handleRequest (client : Option Nat) (req : Request) : List SAction :=
  if req.reqType = "tcpip-forward" then
    [SAction.serviceTcpIpForward client]
  else
    [SAction.logRequest]

/-- `SshServer.handleRequests` over a request stream, for a fixed value of
`s.client` (the Go loop reads `s.client` afresh at each iteration; this
form is used when the field does not change during the stream). -/
def handleRequests (client : Option Nat) (reqs : List Request) : List SAction :=
  reqs.flatMap (handleRequest client)

/-- `SshServer.Start`'s accept loop effect on the single `client` field:
each event is `some peer` when `ssh.NewServerConn` completes the handshake
(then `s.client = sshConn` overwrites the field) and `none` when the
handshake fails (the loop `continue`s without touching the field). -/
def serverAcceptLoop (client : Option Nat) (events : List (Option Nat)) : Option Nat :=
  events.foldl
    (fun cur e =>
      match e with
      | some peer => some peer
      | none => cur)
    client

/-! ## Ssh connection manager (Go package `sshc`) -/

/-- The ssh connection statuses `STATUS_CONNECTING`, `STATUS_CONNECTED`,
`STATUS_CLOSED`. -/
inductive ConnStatus where
  | connecting
  | connected
  | closed
  deriving DecidableEq

/-- The state of an `SshConnection` that the supervision loop mutates:
the `Client` field (`none` = Go `nil`), the status string, the counter of
the `connected` wait group (the readiness latch is released exactly when
the counter is `0`), and the `isStopped` flag. -/
structure ConnState where
  client : Option Nat
  connectionStatus : ConnStatus
  connectedCount : Nat
  isStopped : Bool
  deriving DecidableEq

/-- `NewSshConnection`: no client yet, status `Connecting`, wait group at 1
(client not connected on startup), stopped until `Start` runs. -/
def newSshConnection : ConnState :=
  { client := none
    connectionStatus := ConnStatus.connecting
    connectedCount := 1
    isStopped := true }

/-- `SshConnection.resetConn`: `s.Client.Close()` closes the live handle
but leaves the `Client` field set; only the status is written. -/
def resetConn (s : ConnState) : ConnState :=
  { s with connectionStatus := ConnStatus.closed }

/-- `SshConnection.Stop`: set the stop flag, then reset the connection. -/
def stopConn (s : ConnState) : ConnState :=
  resetConn { s with isStopped := true }

/-- Externally observable actions of the supervision loop and of
`keepAlive`. -/
inductive ConnAction where
  /-- `s.Client.SendRequest(name, wantReply, nil)` -/
  | sendRequest (name : String) (wantReply : Bool)
  /-- `time.Sleep` of the given interval -/
  | sleep (interval : Nat)
  /-- `s.Client.Close()` inside `resetConn` -/
  | closeClient
  /-- the `error while connecting` log line -/
  | logConnectError
  deriving DecidableEq

/-- `keepAliveInterval`: 5 seconds. -/
def keepAliveInterval : Nat := 5

/-- `reconnectionInterval`: 5 seconds. -/
def reconnectionInterval : Nat := 5

/-- `SshConnection.keepAlive` with an oracle telling how many
`SendRequest("keepalive@rospo", true, nil)` calls succeed before one
fails: each successful send is followed by a sleep of
`keepAliveInterval`; the failing send makes `keepAlive` return. -/
def keepAliveActions : Nat → List ConnAction
  | 0 => [ConnAction.sendRequest "keepalive@rospo" true]
  | k + 1 =>
    ConnAction.sendRequest "keepalive@rospo" true ::
      ConnAction.sleep keepAliveInterval :: keepAliveActions k

/-- Oracle for one iteration of `SshConnection.Start`'s loop: either
`connect()` fails, or it succeeds producing a client handle and
`keepAlive` later returns after `keepAliveSuccesses` successful sends. -/
inductive ConnEvent where
  | connectFail
  | connectOk (clientId : Nat) (keepAliveSuccesses : Nat)
  deriving DecidableEq

/-- One iteration of the `for` loop in `SshConnection.Start` (entered with
`isStopped` already found false).  Returns the state at the end of the
iteration, the list of intermediate states after each mutation the body
performs (in program order), and the observable actions.  On failure:
log, sleep `reconnectionInterval`, `continue`.  On success: `connect()`
stores the client, `connected.Done()` releases the latch, status becomes
`Connected`, `keepAlive()` blocks until a send fails, then `resetConn`
closes the client and sets `Closed`, and `connected.Add(1)` re-arms the
latch. -/
def startIteration (s : ConnState) (e : ConnEvent) :
    ConnState × List ConnState × List ConnAction :=
  let s1 := { s with connectionStatus := ConnStatus.connecting }
  match e with
  | ConnEvent.connectFail =>
    (s1, [s1], [ConnAction.logConnectError, ConnAction.sleep reconnectionInterval])
  | ConnEvent.connectOk c k =>
    let s2 := { s1 with client := some c }
    let s3 := { s2 with connectedCount := s2.connectedCount - 1 }
    let s4 := { s3 with connectionStatus := ConnStatus.connected }
    let s5 := resetConn s4
    let s6 := { s5 with connectedCount := s5.connectedCount + 1 }
    (s6, [s1, s2, s3, s4, s5, s6], keepAliveActions k ++ [ConnAction.closeClient])

/-- The sequence of states the `Start` loop passes through while consuming
the iteration oracle; the loop breaks as soon as it observes
`isStopped`. -/
def startStates (s : ConnState) : List ConnEvent → List ConnState
  | [] => []
  | e :: es =>
    if s.isStopped then []
    else
      let r := startIteration s e
      r.2.1 ++ startStates r.1 es

/-- `SshConnection.Start`: first `s.isStopped.Store(false)`, then the loop.
The returned list holds every state the connection passes through. -/
def startRun (s : ConnState) (es : List ConnEvent) : List ConnState :=
  let s0 := { s with isStopped := false }
  s0 :: startStates s0 es

/-! ## Host-key verifier (`SshConnection.verifyHostCallback`) -/

/-- The known_hosts file: its parsed `(host, key)` entries and whether the
file exists on disk (`knownhosts.New` fails when it does not). -/
structure KnownHostsStore where
  entries : List (String × PublicKey)
  onDisk : Bool
  deriving DecidableEq

/-- Outcome classes of the knownhosts lookup callback `clb(host, remote,
key)`: `ok` — nil error; `mismatch` — a `knownhosts.KeyError` whose `Want`
list is non-empty (the host is recorded with other keys); `notFound` — a
`KeyError` with empty `Want` (host not recorded). -/
inductive KnownHostsResult where
  | ok
  | mismatch
  | notFound
  deriving DecidableEq

/-- The knownhosts lookup (external library, spec: "treated as opaque
predicates"): `Want` is the list of keys recorded for the host. -/
def lookupKnown (entries : List (String × PublicKey)) (host : String) (key : PublicKey) :
    KnownHostsResult :=
  let want := (entries.filter (fun en => en.1 == host)).map (fun en => en.2)
  if want.isEmpty then KnownHostsResult.notFound
  else if key ∈ want then KnownHostsResult.ok
  else KnownHostsResult.mismatch

/-- What the host-key callback returns: accept (nil error), the
host-key-mismatch error `e`, or process termination via `log.Fatalf`
(the `return errors.New("")` after the Fatalf is unreachable). -/
inductive VerifyResult where
  | accept
  | rejectMismatch
  | fatalUntrusted
  deriving DecidableEq

/-- Observable side effects of the host-key callback. -/
inductive VAction where
  /-- `os.OpenFile(s.knownHosts, os.O_CREATE, 0600)` -/
  | createFile (mode : Nat)
  /-- the second `knownhosts.New(s.knownHosts)` call -/
  | retryParse
  /-- the `ERROR: ... man in the middle ...` log with the offered key's
  SHA-256 fingerprint -/
  | logMismatch (fingerprint : String)
  /-- the `log.Fatalf` for an untrusted host on a client dial -/
  | fatalNotTrusted (host : String)
  /-- the `WARNING: ... adding this key ...` log with the serialized key -/
  | logTOFUWarning (host : String) (serializedKey : String)
  /-- `utils.AddHostKeyToKnownHosts(host, key, s.knownHosts)` -/
  | appendKnownHost (host : String) (key : PublicKey)
  deriving DecidableEq

/-- Result record of one invocation of the host-key callback: the returned
verdict, the known_hosts store after the call, and the side effects in
program order. -/
structure VerifyOutcome where
  result : VerifyResult
  store : KnownHostsStore
  actions : List VAction
  deriving DecidableEq

/-- The branch structure of the strict callback body after `knownhosts.New`
succeeded on `entries`: mismatch (`len(keyErr.Want) > 0`) logs and returns
`e`; not-found (`len(keyErr.Want) == 0`) either `log.Fatalf`s (when the
callback was built with `fail = true`, i.e. by `connect`) or appends the
key and accepts (when built with `fail = false`, i.e. by `GrabPubKey`);
a matching key returns nil. -/
def verifyHostLookup (fail : Bool) (entries : List (String × PublicKey))
    (host : String) (key : PublicKey) :
    VerifyResult × List (String × PublicKey) × List VAction :=
  match lookupKnown entries host key with
  | KnownHostsResult.ok => (VerifyResult.accept, entries, [])
  | KnownHostsResult.mismatch =>
    (VerifyResult.rejectMismatch, entries, [VAction.logMismatch key.fingerprintSHA256])
  | KnownHostsResult.notFound =>
    if fail then
      (VerifyResult.fatalUntrusted, entries, [VAction.fatalNotTrusted host])
    else
      (VerifyResult.accept, entries ++ [(host, key)],
        [VAction.logTOFUWarning host key.serialized, VAction.appendKnownHost host key])

/-- `SshConnection.verifyHostCallback(fail)` applied to `(host, key)`:
insecure mode accepts unconditionally; otherwise, if `knownhosts.New`
fails because the file is missing, the file is created empty with mode
0600 and the parse is retried on the newly created (empty) file before
the lookup proceeds. -/
def verifyHostCallback (insecure fail : Bool) (store : KnownHostsStore)
    (host : String) (key : PublicKey) : VerifyOutcome :=
  if insecure then
    { result := VerifyResult.accept, store := store, actions := [] }
  else if store.onDisk then
    let r := verifyHostLookup fail store.entries host key
    { result := r.1, store := { entries := r.2.1, onDisk := true }, actions := r.2.2 }
  else
    let r := verifyHostLookup fail [] host key
    { result := r.1
      store := { entries := r.2.1, onDisk := true }
      actions := VAction.createFile 0o600 :: VAction.retryParse :: r.2.2 }

/-! ## Auth provider (`SshConnection.getAuthMethods`) -/

/-- The three kinds of `ssh.AuthMethod` values the provider can build. -/
inductive AuthMethod where
  /-- `utils.LoadIdentityFile(s.identity)` result -/
  | publicKeys (identity : String)
  /-- `ssh.Password(s.password)` -/
  | password (secret : String)
  /-- `ssh.PasswordCallback(...)` prompting on the terminal -/
  | passwordCallback
  deriving DecidableEq

/-- `SshConnection.getAuthMethods`: start from the empty slice; append the
identity-file method when `LoadIdentityFile` returned no error
(`identityLoadOk`); append the configured password when it is non-empty;
always append the interactive password-prompt callback last. -/
def getAuthMethods (identityLoadOk : Bool) (identity pw : String) : List AuthMethod :=
  let authMethods : List AuthMethod := []
  let authMethods :=
    if identityLoadOk then authMethods ++ [AuthMethod.publicKeys identity] else authMethods
  let authMethods :=
    if pw ≠ "" then authMethods ++ [AuthMethod.password pw] else authMethods
  authMethods ++ [AuthMethod.passwordCallback]

/-! ## Endpoint and ssh url parsing (Go package `tun`) -/

/-- `fmt.Sprintf` rendering of one decimal digit. -/
def charOfDigit (d : Nat) : Char := Char.ofNat (48 + d)

/-- Numeric value of a decimal digit character. -/
def digitVal (c : Char) : Nat := c.toNat - 48

/-- Division loop producing the big-endian decimal digits of a positive
number; the first argument is fuel (any bound on the value works). -/
def natCharsAux : Nat → Nat → List Char
  | 0, _ => []
  | _ + 1, 0 => []
  | fuel + 1, n + 1 =>
    natCharsAux fuel ((n + 1) / 10) ++ [charOfDigit ((n + 1) % 10)]

/-- The decimal rendering `fmt.Sprintf("%d", n)` of a natural number. -/
def natChars (n : Nat) : List Char :=
  if n = 0 then ['0'] else natCharsAux n n

/-- `strconv`-style parse of a decimal digit string. -/
def parseNat (l : List Char) : Nat :=
  l.foldl (fun a c => 10 * a + digitVal c) 0

/-- Split a character list at the first occurrence of `sep`. -/
def splitFirst (sep : Char) : List Char → Option (List Char × List Char)
  | [] => none
  | c :: rest =>
    if c = sep then some ([], rest)
    else (splitFirst sep rest).map (fun p => (c :: p.1, p.2))

/-- The characters of the `ssh://` scheme marker. -/
def sshScheme : List Char := ['s', 's', 'h', ':', '/', '/']

/-- Drop a leading `ssh://` scheme if present. -/
def stripScheme (s : List Char) : List Char :=
  if s.take 6 = sshScheme then s.drop 6 else s

/-- The result of parsing an ssh url. -/
structure SSHUrl where
  username : Option (List Char)
  host : List Char
  port : Nat
  deriving DecidableEq

/-- Modelled from the spec: `utils.ParseSSHUrl` is not under `src/` (only
its callers are).  Per spec section 4.1 it accepts `user@host:port`,
`host:port`, `host`, with an optional `ssh://` scheme, extracting the
optional username, the host, and the port with default 22. -/
def parseSSHUrl (s : List Char) : SSHUrl :=
  let s1 := stripScheme s
  let rest :=
    match splitFirst '@' s1 with
    | some p => p.2
    | none => s1
  let user :=
    match splitFirst '@' s1 with
    | some p => some p.1
    | none => none
  match splitFirst ':' rest with
  | some p => { username := user, host := p.1, port := parseNat p.2 }
  | none => { username := user, host := rest, port := 22 }

/-- `tun.Endpoint`: host and port. -/
structure Endpoint where
  host : List Char
  port : Nat
  deriving DecidableEq

/-- `tun.NewEndpoint`: parse the string and keep host and port. -/
def NewEndpoint (s : List Char) : Endpoint :=
  let parsed := parseSSHUrl s
  { host := parsed.host, port := parsed.port }

/-- `tun.Endpoint.String`: `fmt.Sprintf("%s:%d", endpoint.Host,
endpoint.Port)`. -/
def Endpoint.render (e : Endpoint) : List Char :=
  e.host ++ ':' :: natChars e.port

/-! ## Theorems -/

theorem buildAuthorizedKeysMap_foldl (keys : List PublicKey) (acc : List (List Nat)) :
    keys.foldl (fun m k => m ++ [k.marshal]) acc = acc ++ keys.map PublicKey.marshal := by
  induction keys generalizing acc with
  | nil => simp
  | cons k rest ih => simp [List.foldl_cons, ih]

/-- C6: the public-key callback permits a connection iff the offered key's
wire-marshalled form is in the authorised set loaded at startup, recording
the SHA-256 fingerprint as the `pubkey-fp` permission extension; with an
empty authorised-keys file every public-key attempt is rejected. -/
theorem keyAuth_authorized_iff (keys : List PublicKey) (user : String) (pk : PublicKey) :
    keyAuth (buildAuthorizedKeysMap keys) user pk =
      (if pk.marshal ∈ keys.map PublicKey.marshal then
        Except.ok { extensions := [("pubkey-fp", pk.fingerprintSHA256)] }
      else
        Except.error ("unknown public key for \"" ++ user ++ "\"")) ∧
    keyAuth (buildAuthorizedKeysMap []) user pk =
      Except.error ("unknown public key for \"" ++ user ++ "\"") := by
  have hb : buildAuthorizedKeysMap keys = keys.map PublicKey.marshal := by
    simpa using buildAuthorizedKeysMap_foldl keys []
  constructor
  · simp only [keyAuth, hb]
  · simp [keyAuth, buildAuthorizedKeysMap]

/-- C8: the auth provider builds exactly the ordered list: public-key auth
when the identity file loads, then password auth when the password is
non-empty, then the interactive password-prompt callback, always last. -/
theorem getAuthMethods_ordered (idOk : Bool) (identity pw : String) :
    getAuthMethods idOk identity pw =
      (if idOk then [AuthMethod.publicKeys identity] else []) ++
        (if pw ≠ "" then [AuthMethod.password pw] else []) ++
        [AuthMethod.passwordCallback] ∧
    (getAuthMethods idOk identity pw).getLast? = some AuthMethod.passwordCallback := by
  cases idOk <;> by_cases hpw : pw = "" <;>
    simp [getAuthMethods, hpw, List.getLast?_concat]

/-- C4 counterexample: a non-`tcpip-forward` out-of-band request that wants
a reply is only logged; the handler never replies failure, contradicting
the claim that such requests are rejected. -/
theorem handleRequest_no_reject_counterexample :
    handleRequest (some 1) { reqType := "no-more-sessions", wantReply := true, origin := 1 } =
      [SAction.logRequest] ∧
    SAction.replyFailure ∉
      handleRequest (some 1) { reqType := "no-more-sessions", wantReply := true, origin := 1 } := by
  decide

/-- C4 amended: a `tcpip-forward` request is serviced against the current
client; every request of any other type is only logged, and no failure
reply is ever sent, even when the request wants a reply. -/
theorem handleRequest_spec (c : Option Nat) (req : Request) :
    handleRequest c req =
      (if req.reqType = "tcpip-forward" then [SAction.serviceTcpIpForward c]
        else [SAction.logRequest]) ∧
    SAction.replyFailure ∉ handleRequest c req := by
  refine ⟨rfl, ?_⟩
  unfold handleRequest
  split <;> simp

theorem serverAcceptLoop_all_none (post : List (Option Nat)) :
    ∀ c : Option Nat, (∀ e ∈ post, e = none) → serverAcceptLoop c post = c := by
  induction post with
  | nil => intro c _; rfl
  | cons e rest ih =>
    intro c h
    have he : e = none := h e (List.mem_cons_self e rest)
    subst he
    exact ih c (fun x hx => h x (List.mem_cons_of_mem _ hx))

/-- C10: each successful server handshake overwrites the single `client`
field, so after the last successful handshake the field refers to that
peer, and a `tcpip-forward` request — whatever peer's request stream it
arrived on — is serviced against that most recently accepted connection. -/
theorem serverClient_latest (c0 : Option Nat) (pre post : List (Option Nat)) (p : Nat)
    (hpost : ∀ e ∈ post, e = none) (wr : Bool) (origin : Nat) :
    serverAcceptLoop c0 (pre ++ some p :: post) = some p ∧
    handleRequest (serverAcceptLoop c0 (pre ++ some p :: post))
        { reqType := "tcpip-forward", wantReply := wr, origin := origin } =
      [SAction.serviceTcpIpForward (some p)] := by
  have h1 : serverAcceptLoop c0 (pre ++ some p :: post) = some p := by
    unfold serverAcceptLoop
    rw [List.foldl_append, List.foldl_cons]
    exact serverAcceptLoop_all_none post (some p) hpost
  refine ⟨h1, ?_⟩
  rw [h1]
  simp [handleRequest]

theorem serverClient_latest_witness :
    serverAcceptLoop none ([some 1] ++ some 2 :: [none]) = some 2 ∧
    handleRequest (serverAcceptLoop none ([some 1] ++ some 2 :: [none]))
        { reqType := "tcpip-forward", wantReply := true, origin := 1 } =
      [SAction.serviceTcpIpForward (some 2)] :=
  serverClient_latest none [some 1] [none] 2 (by decide) true 1

/-- C2 counterexample: with an empty but existing known_hosts store, the
callback built for a client dial (`fail = true`) does not accept the
unknown host (it terminates via `log.Fatalf`), while the callback built
for grab mode (`fail = false`) does write to the store — the opposite of
the claim. -/
theorem verifyHost_tofu_counterexample :
    (verifyHostCallback false true { entries := [], onDisk := true } "example.com"
        { marshal := [1], fingerprintSHA256 := "SHA256:k0", serialized := "k0" }).result ≠
      VerifyResult.accept ∧
    (verifyHostCallback false false { entries := [], onDisk := true } "example.com"
        { marshal := [1], fingerprintSHA256 := "SHA256:k0", serialized := "k0" }).store.entries ≠
      [] := by
  decide

/-- C2 amended: in strict verification, when the host is not recorded: the
callback built for a client dial (`fail = true`) fails fatally with the
`not trusted` error and does not write to the store; the callback built
for grab mode (`fail = false`) logs a warning with the serialized key,
appends the offered key to the store, and accepts. -/
theorem verifyHost_unknown_spec (store : KnownHostsStore) (host : String) (key : PublicKey)
    (hd : store.onDisk = true)
    (hu : lookupKnown store.entries host key = KnownHostsResult.notFound) :
    (verifyHostCallback false true store host key).result = VerifyResult.fatalUntrusted ∧
    (verifyHostCallback false true store host key).store = store ∧
    (verifyHostCallback false false store host key).result = VerifyResult.accept ∧
    (verifyHostCallback false false store host key).store.entries =
      store.entries ++ [(host, key)] ∧
    (verifyHostCallback false false store host key).actions =
      [VAction.logTOFUWarning host key.serialized, VAction.appendKnownHost host key] := by
  obtain ⟨entries, onDisk⟩ := store
  cases hd
  simp [verifyHostCallback, verifyHostLookup, hu]

theorem verifyHost_unknown_spec_witness :
    (verifyHostCallback false true { entries := [], onDisk := true } "h"
        { marshal := [1], fingerprintSHA256 := "f", serialized := "s" }).result =
      VerifyResult.fatalUntrusted ∧
    (verifyHostCallback false true { entries := [], onDisk := true } "h"
        { marshal := [1], fingerprintSHA256 := "f", serialized := "s" }).store =
      { entries := [], onDisk := true } ∧
    (verifyHostCallback false false { entries := [], onDisk := true } "h"
        { marshal := [1], fingerprintSHA256 := "f", serialized := "s" }).result =
      VerifyResult.accept ∧
    (verifyHostCallback false false { entries := [], onDisk := true } "h"
        { marshal := [1], fingerprintSHA256 := "f", serialized := "s" }).store.entries =
      [] ++ [("h", { marshal := [1], fingerprintSHA256 := "f", serialized := "s" })] ∧
    (verifyHostCallback false false { entries := [], onDisk := true } "h"
        { marshal := [1], fingerprintSHA256 := "f", serialized := "s" }).actions =
      [VAction.logTOFUWarning "h" "s",
        VAction.appendKnownHost "h" { marshal := [1], fingerprintSHA256 := "f", serialized := "s" }] :=
  verifyHost_unknown_spec { entries := [], onDisk := true } "h"
    { marshal := [1], fingerprintSHA256 := "f", serialized := "s" } rfl (by decide)

/-- C3: in strict verification, when the host is recorded with a different
key, the callback returns the host-key-mismatch error and never modifies
the known-hosts store (no append, no file creation, store unchanged). -/
theorem verifyHost_mismatch_spec (fail : Bool) (store : KnownHostsStore) (host : String)
    (key : PublicKey) (hd : store.onDisk = true)
    (hm : lookupKnown store.entries host key = KnownHostsResult.mismatch) :
    (verifyHostCallback false fail store host key).result = VerifyResult.rejectMismatch ∧
    (verifyHostCallback false fail store host key).store = store ∧
    ∀ h k, VAction.appendKnownHost h k ∉ (verifyHostCallback false fail store host key).actions := by
  obtain ⟨entries, onDisk⟩ := store
  cases hd
  simp [verifyHostCallback, verifyHostLookup, hm]

theorem verifyHost_mismatch_spec_witness :
    (verifyHostCallback false true
        { entries := [("h", { marshal := [1], fingerprintSHA256 := "f1", serialized := "s1" })],
          onDisk := true } "h"
        { marshal := [2], fingerprintSHA256 := "f2", serialized := "s2" }).result =
      VerifyResult.rejectMismatch ∧
    (verifyHostCallback false true
        { entries := [("h", { marshal := [1], fingerprintSHA256 := "f1", serialized := "s1" })],
          onDisk := true } "h"
        { marshal := [2], fingerprintSHA256 := "f2", serialized := "s2" }).store =
      { entries := [("h", { marshal := [1], fingerprintSHA256 := "f1", serialized := "s1" })],
        onDisk := true } ∧
    ∀ h k, VAction.appendKnownHost h k ∉
      (verifyHostCallback false true
        { entries := [("h", { marshal := [1], fingerprintSHA256 := "f1", serialized := "s1" })],
          onDisk := true } "h"
        { marshal := [2], fingerprintSHA256 := "f2", serialized := "s2" }).actions :=
  verifyHost_mismatch_spec true
    { entries := [("h", { marshal := [1], fingerprintSHA256 := "f1", serialized := "s1" })],
      onDisk := true } "h"
    { marshal := [2], fingerprintSHA256 := "f2", serialized := "s2" } rfl (by decide)

/-- C7: in strict verification, when the known-hosts store file is missing,
the callback creates it with mode 0600, retries the parse, and then runs
the lookup against the newly created empty file: apart from the creation
and retry actions, the invocation behaves exactly as on an existing empty
store. -/
theorem verifyHost_missing_store (entries : List (String × PublicKey)) (fail : Bool)
    (host : String) (key : PublicKey) :
    (verifyHostCallback false fail { entries := entries, onDisk := false } host key).actions =
      VAction.createFile 0o600 :: VAction.retryParse ::
        (verifyHostCallback false fail { entries := [], onDisk := true } host key).actions ∧
    (verifyHostCallback false fail { entries := entries, onDisk := false } host key).result =
      (verifyHostCallback false fail { entries := [], onDisk := true } host key).result ∧
    (verifyHostCallback false fail { entries := entries, onDisk := false } host key).store =
      (verifyHostCallback false fail { entries := [], onDisk := true } host key).store := by
  refine ⟨rfl, rfl, rfl⟩

/-- C1 counterexample: along the run in which one connect succeeds and its
keep-alive later fails, the loop reaches a state (just after `resetConn`)
whose status is `Closed` while the `Client` field still holds the closed
handle, so the claimed three-way equivalence between `Connected`, the
released latch, and a non-null client is false. -/
theorem connState_equiv_counterexample :
    ¬ ∀ σ ∈ startRun newSshConnection [ConnEvent.connectOk 1 0],
        ((σ.connectionStatus = ConnStatus.connected ↔ σ.connectedCount = 0) ∧
          (σ.connectedCount = 0 ↔ σ.client ≠ none)) := by
  decide

theorem startStates_invariant (es : List ConnEvent) :
    ∀ σ0 : ConnState, σ0.connectedCount = 1 →
      ∀ σ ∈ startStates σ0 es,
        (σ.connectionStatus = ConnStatus.connected → σ.connectedCount = 0 ∧ σ.client ≠ none) ∧
        (σ.connectedCount = 0 → σ.client ≠ none) := by
  induction es with
  | nil =>
    intro σ0 h1 σ hσ
    simp [startStates] at hσ
  | cons e es ih =>
    intro σ0 h1 σ hσ
    obtain ⟨cl, st, cnt, stp⟩ := σ0
    simp only [ConnState.mk.injEq] at h1
    subst h1
    rw [startStates] at hσ
    by_cases hs : stp = true
    · subst hs
      simp at hσ
    · rw [if_neg (by simpa using hs)] at hσ
      cases e with
      | connectFail =>
        simp only [startIteration, List.cons_append, List.nil_append, List.mem_cons] at hσ
        rcases hσ with rfl | hσ
        · exact ⟨(fun hcon => nomatch hcon), (fun hc => nomatch hc)⟩
        · exact ih _ rfl σ hσ
      | connectOk c k =>
        simp only [startIteration, resetConn, List.cons_append, List.nil_append,
          List.mem_cons] at hσ
        rcases hσ with rfl | rfl | rfl | rfl | rfl | rfl | hσ
        · exact ⟨(fun hcon => nomatch hcon), (fun hc => nomatch hc)⟩
        · exact ⟨(fun hcon => nomatch hcon), (fun hc => nomatch hc)⟩
        · exact ⟨(fun hcon => nomatch hcon), (fun _ h => Option.noConfusion h)⟩
        · exact ⟨(fun _ => ⟨rfl, fun h => Option.noConfusion h⟩), (fun _ h => Option.noConfusion h)⟩
        · exact ⟨(fun hcon => nomatch hcon), (fun _ h => Option.noConfusion h)⟩
        · exact ⟨(fun hcon => nomatch hcon), (fun hc => nomatch hc)⟩
        · exact ih _ rfl σ hσ

/-- C1 amended: at every state of any run of the supervision loop, status
`Connected` implies that the readiness latch is released and the client
handle is non-null, and a released latch implies a non-null client; the
converse fails because after a disconnect or `Stop()` the `Client` field
keeps the last, closed, handle. -/
theorem connState_invariant (es : List ConnEvent) (σ : ConnState)
    (h : σ ∈ startRun newSshConnection es) :
    (σ.connectionStatus = ConnStatus.connected → σ.connectedCount = 0 ∧ σ.client ≠ none) ∧
    (σ.connectedCount = 0 → σ.client ≠ none) := by
  rw [startRun] at h
  rcases List.mem_cons.mp h with rfl | h
  · exact ⟨(fun hcon => nomatch hcon), (fun hc => nomatch hc)⟩
  · exact startStates_invariant es _ rfl σ h

theorem connState_invariant_witness :
    ((ConnState.mk (some 1) ConnStatus.connected 0 false).connectionStatus =
        ConnStatus.connected →
      (ConnState.mk (some 1) ConnStatus.connected 0 false).connectedCount = 0 ∧
        (ConnState.mk (some 1) ConnStatus.connected 0 false).client ≠ none) ∧
    ((ConnState.mk (some 1) ConnStatus.connected 0 false).connectedCount = 0 →
      (ConnState.mk (some 1) ConnStatus.connected 0 false).client ≠ none) :=
  connState_invariant [ConnEvent.connectOk 1 0]
    (ConnState.mk (some 1) ConnStatus.connected 0 false) (by decide)

theorem keepAliveActions_eq (k : Nat) :
    keepAliveActions k =
      (List.replicate k [ConnAction.sendRequest "keepalive@rospo" true,
          ConnAction.sleep keepAliveInterval]).flatten ++
        [ConnAction.sendRequest "keepalive@rospo" true] := by
  induction k with
  | zero => rfl
  | succ k ih => simp [keepAliveActions, List.replicate_succ, ih]

/-- C5: while not stopped, a failed connect attempt logs, sleeps
`reconnectionInterval` and the loop proceeds to the next attempt; after a
successful connect, keep-alive sends the global request `keepalive@rospo`
repeatedly (one send per cycle, a sleep of `keepAliveInterval` after each
successful one) until a send error makes it return, after which the client
is closed, status becomes `Closed`, the latch is re-armed to 1, the stop
flag is still clear, and the loop continues with a reconnect cycle. -/
theorem supervision_loop_spec (σ : ConnState) (es : List ConnEvent) (c k : Nat)
    (hs : σ.isStopped = false) (hc : σ.connectedCount = 1) :
    (startIteration σ ConnEvent.connectFail).2.2 =
      [ConnAction.logConnectError, ConnAction.sleep reconnectionInterval] ∧
    startStates σ (ConnEvent.connectFail :: es) =
      { σ with connectionStatus := ConnStatus.connecting } ::
        startStates { σ with connectionStatus := ConnStatus.connecting } es ∧
    (startIteration σ (ConnEvent.connectOk c k)).2.2 =
      keepAliveActions k ++ [ConnAction.closeClient] ∧
    keepAliveActions k =
      (List.replicate k [ConnAction.sendRequest "keepalive@rospo" true,
          ConnAction.sleep keepAliveInterval]).flatten ++
        [ConnAction.sendRequest "keepalive@rospo" true] ∧
    (startIteration σ (ConnEvent.connectOk c k)).1.connectionStatus = ConnStatus.closed ∧
    (startIteration σ (ConnEvent.connectOk c k)).1.connectedCount = 1 ∧
    (startIteration σ (ConnEvent.connectOk c k)).1.isStopped = false ∧
    startStates σ (ConnEvent.connectOk c k :: es) =
      (startIteration σ (ConnEvent.connectOk c k)).2.1 ++
        startStates (startIteration σ (ConnEvent.connectOk c k)).1 es := by
  refine ⟨rfl, ?_, rfl, keepAliveActions_eq k, rfl, ?_, hs, ?_⟩
  · simp [startStates, hs, startIteration]
  · simp [startIteration, resetConn, hc]
  · simp [startStates, hs, startIteration]

theorem supervision_loop_spec_witness :
    (startIteration (ConnState.mk none ConnStatus.connecting 1 false)
        ConnEvent.connectFail).2.2 =
      [ConnAction.logConnectError, ConnAction.sleep reconnectionInterval] ∧
    startStates (ConnState.mk none ConnStatus.connecting 1 false)
        (ConnEvent.connectFail :: []) =
      { ConnState.mk none ConnStatus.connecting 1 false with
          connectionStatus := ConnStatus.connecting } ::
        startStates
          { ConnState.mk none ConnStatus.connecting 1 false with
              connectionStatus := ConnStatus.connecting } [] ∧
    (startIteration (ConnState.mk none ConnStatus.connecting 1 false)
        (ConnEvent.connectOk 7 2)).2.2 =
      keepAliveActions 2 ++ [ConnAction.closeClient] ∧
    keepAliveActions 2 =
      (List.replicate 2 [ConnAction.sendRequest "keepalive@rospo" true,
          ConnAction.sleep keepAliveInterval]).flatten ++
        [ConnAction.sendRequest "keepalive@rospo" true] ∧
    (startIteration (ConnState.mk none ConnStatus.connecting 1 false)
        (ConnEvent.connectOk 7 2)).1.connectionStatus = ConnStatus.closed ∧
    (startIteration (ConnState.mk none ConnStatus.connecting 1 false)
        (ConnEvent.connectOk 7 2)).1.connectedCount = 1 ∧
    (startIteration (ConnState.mk none ConnStatus.connecting 1 false)
        (ConnEvent.connectOk 7 2)).1.isStopped = false ∧
    startStates (ConnState.mk none ConnStatus.connecting 1 false)
        (ConnEvent.connectOk 7 2 :: []) =
      (startIteration (ConnState.mk none ConnStatus.connecting 1 false)
          (ConnEvent.connectOk 7 2)).2.1 ++
        startStates
          (startIteration (ConnState.mk none ConnStatus.connecting 1 false)
            (ConnEvent.connectOk 7 2)).1 [] :=
  supervision_loop_spec (ConnState.mk none ConnStatus.connecting 1 false) [] 7 2 rfl rfl

theorem parseNat_concat (l : List Char) (c : Char) :
    parseNat (l ++ [c]) = 10 * parseNat l + digitVal c := by
  simp [parseNat, List.foldl_append]

theorem digitVal_charOfDigit (d : Nat) (h : d < 10) : digitVal (charOfDigit d) = d := by
  interval_cases d <;> decide

theorem natCharsAux_parse (fuel : Nat) :
    ∀ n : Nat, n ≤ fuel → parseNat (natCharsAux fuel n) = n := by
  induction fuel with
  | zero =>
    intro n hn
    interval_cases n
    rfl
  | succ f ih =>
    intro n hn
    cases n with
    | zero => rfl
    | succ m =>
      have hdiv : (m + 1) / 10 ≤ f := by
        have h1 : (m + 1) / 10 < m + 1 := Nat.div_lt_self (Nat.succ_pos m) (by omega)
        omega
      rw [natCharsAux, parseNat_concat, ih ((m + 1) / 10) hdiv,
        digitVal_charOfDigit ((m + 1) % 10) (Nat.mod_lt _ (by omega))]
      exact Nat.div_add_mod (m + 1) 10

theorem natCharsAux_digits (fuel : Nat) :
    ∀ n : Nat, ∀ c ∈ natCharsAux fuel n, ∃ d, d < 10 ∧ c = charOfDigit d := by
  induction fuel with
  | zero =>
    intro n c hcm
    simp [natCharsAux] at hcm
  | succ f ih =>
    intro n c hcm
    cases n with
    | zero => simp [natCharsAux] at hcm
    | succ m =>
      rw [natCharsAux] at hcm
      rcases List.mem_append.mp hcm with h | h
      · exact ih _ c h
      · rcases List.mem_singleton.mp h with rfl
        exact ⟨(m + 1) % 10, Nat.mod_lt _ (by omega), rfl⟩

theorem natChars_parse (n : Nat) : parseNat (natChars n) = n := by
  by_cases h : n = 0
  · subst h
    rfl
  · rw [natChars, if_neg h]
    exact natCharsAux_parse n n (le_refl n)

theorem natChars_digits (n : Nat) : ∀ c ∈ natChars n, ∃ d, d < 10 ∧ c = charOfDigit d := by
  by_cases h : n = 0
  · subst h
    intro c hcm
    rcases List.mem_singleton.mp hcm with rfl
    exact ⟨0, by omega, by decide⟩
  · rw [natChars, if_neg h]
    exact natCharsAux_digits n n

theorem natChars_not_special (n : Nat) (c : Char) (hcm : c ∈ natChars n) :
    c ≠ ':' ∧ c ≠ '/' ∧ c ≠ '@' := by
  obtain ⟨d, hd, rfl⟩ := natChars_digits n c hcm
  interval_cases d <;> exact ⟨by decide, by decide, by decide⟩

theorem splitFirst_not_mem (sep : Char) (l : List Char) (h : sep ∉ l) :
    splitFirst sep l = none := by
  induction l with
  | nil => rfl
  | cons c rest ih =>
    simp only [List.mem_cons, not_or] at h
    rw [splitFirst, if_neg (fun hc => h.1 hc.symm), ih h.2]
    rfl

theorem splitFirst_append (sep : Char) (l₁ l₂ : List Char) (h : sep ∉ l₁) :
    splitFirst sep (l₁ ++ sep :: l₂) = some (l₁, l₂) := by
  induction l₁ with
  | nil => simp [splitFirst]
  | cons c rest ih =>
    simp only [List.mem_cons, not_or] at h
    rw [List.cons_append, splitFirst, if_neg (fun hc => h.1 hc.symm), ih h.2]
    rfl

theorem stripScheme_hostport (host pc : List Char) (hc : ':' ∉ host) (hpc : '/' ∉ pc) :
    stripScheme (host ++ ':' :: pc) = host ++ ':' :: pc := by
  rw [stripScheme, if_neg]
  intro hpre
  have h3 : (host ++ ':' :: pc)[3]? = some ':' := by
    rw [← List.getElem?_take_of_lt (show (3 : Nat) < 6 by omega), hpre]
    decide
  have h4 : (host ++ ':' :: pc)[4]? = some '/' := by
    rw [← List.getElem?_take_of_lt (show (4 : Nat) < 6 by omega), hpre]
    decide
  rcases Nat.lt_or_ge 3 host.length with hl | hl
  · rw [List.getElem?_append_left hl] at h3
    exact hc (List.getElem?_mem h3)
  · rw [List.getElem?_append_right (by omega)] at h4
    have hj : 4 - host.length = (3 - host.length) + 1 := by omega
    rw [hj, List.getElem?_cons_succ] at h4
    exact hpc (List.getElem?_mem h4)

/-- C9: for a valid endpoint (non-empty host containing neither the
separator nor an at-sign), `String()` renders exactly `host:port` — in
particular no username appears — and parsing the rendered string back
yields an endpoint with the same host and port. -/
theorem endpoint_roundtrip (e : Endpoint) (hne : e.host ≠ [])
    (hc : ':' ∉ e.host) (ha : '@' ∉ e.host) :
    Endpoint.render e = e.host ++ ':' :: natChars e.port ∧
    '@' ∉ Endpoint.render e ∧
    NewEndpoint (Endpoint.render e) = e := by
  obtain ⟨host, port⟩ := e
  have hslash : '/' ∉ natChars port :=
    fun hm => (natChars_not_special port '/' hm).2.1 rfl
  have hat : '@' ∉ host ++ ':' :: natChars port := by
    intro hm
    rcases List.mem_append.mp hm with h | h
    · exact ha h
    · rcases List.mem_cons.mp h with h | h
      · exact absurd h (by decide)
      · exact (natChars_not_special port '@' h).2.2 rfl
  refine ⟨rfl, hat, ?_⟩
  have hstrip := stripScheme_hostport host (natChars port) hc hslash
  have hat' := splitFirst_not_mem '@' (host ++ ':' :: natChars port) hat
  have hcolon := splitFirst_append ':' host (natChars port) hc
  simp only [NewEndpoint, parseSSHUrl, Endpoint.render, hstrip, hat', hcolon, natChars_parse]

theorem endpoint_roundtrip_witness :
    Endpoint.render { host := ['a'], port := 2022 } = ['a'] ++ ':' :: natChars 2022 ∧
    '@' ∉ Endpoint.render { host := ['a'], port := 2022 } ∧
    NewEndpoint (Endpoint.render { host := ['a'], port := 2022 }) =
      { host := ['a'], port := 2022 } :=
  endpoint_roundtrip { host := ['a'], port := 2022 } (by decide) (by decide) (by decide)

end Rospo
